import Mathlib

/-!
# A shallow embedding of the go-easy-instrumentation call-site transforms

This file embeds the instrumentation transforms of the repository
(`parser/agent.go` and the HTTP transform file) over a small model of the
`dst` decorated Go AST, and proves properties of the transforms.

Modelling conventions:
* `dst` nodes become inductive values; in-place mutation becomes returning the
  updated value (functions that mutate a `*dst.NodeDecs` argument return the
  updated decorations alongside the node they build).
* The type-checker information (`pkg.TypesInfo`, `pkg.Decorator.Ast.Nodes`)
  becomes an oracle bundled in `Pkg`: a function from nodes to the answers the
  Go code reads off the maps.  An absent map entry is the oracle returning the
  zero answer (`""` / `none`), matching the `ok`-checked lookups in the source.
* `dstutil.Cursor` becomes a `Cursor` value recording the insertions around the
  current statement: `InsertBefore` appends to `before`, `InsertAfter` conses
  onto `after` (matching `dstutil`, where a second `InsertAfter` lands between
  the node and the first inserted statement); the final statement list is
  `before ++ [current] ++ after`.
* A Go runtime panic (out-of-range indexing) is modelled by an `Option` result
  being `none`.
-/

namespace GoEasyInstr

/-- dst.SpaceType: the blank-line decoration attached before/after a node. -/
inductive SpaceType where
  | None
  | NewLine
  | EmptyLine
deriving DecidableEq, Repr

/-- dst.NodeDecs: decorations of a node.  `endc` models the `End` field. -/
structure NodeDecs where
  before : SpaceType := SpaceType.None
  start : List String := []
  after : SpaceType := SpaceType.None
  endc : List String := []
deriving DecidableEq, Repr

/-- The tokens of `go/token` the transforms use (plus basic-literal kinds). -/
inductive Tok where
  | DEFINE
  | ASSIGN
  | AND
  | MUL
  | NEQ
  | STRING
  | INT
deriving DecidableEq, Repr

/-- dst.Ident: `path` is the dst `Path` field (the import path of a
    package-qualified identifier, `""` for plain identifiers). -/
structure Ident where
  name : String
  path : String := ""
deriving DecidableEq, Repr

/-- A `go/types` type as the transforms observe it: a named type with an
    optional declaring package, a tuple of result types, or anything else. -/
inductive GoType where
  | named (pkg : Option String) (name : String)
  | tuple (elems : List GoType)
  | other (descr : String)

/-- The dst expressions the transforms inspect or build. -/
inductive Expr where
  | ident (i : Ident)
  | sel (x : Expr) (s : Ident)
  | call (fn : Expr) (args : List Expr)
  | unary (op : Tok) (x : Expr)
  | binary (x : Expr) (op : Tok) (y : Expr)
  | basicLit (kind : Tok) (value : String)
  | composite (ty : Option Expr) (elems : List Expr)
  | star (x : Expr)

/-- The dst statements the transforms inspect or build. -/
inductive Stmt where
  | assign (lhs : List Expr) (tok : Tok) (rhs : List Expr) (decs : NodeDecs)
  | exprStmt (x : Expr) (decs : NodeDecs)
  | ifStmt (cond : Expr) (body : List Stmt) (decs : NodeDecs)
  | deferStmt (call : Expr) (decs : NodeDecs)
  | ret (results : List Expr) (decs : NodeDecs)

/-- The decorations of a statement (`stmt.Decorations()`). -/
def Stmt.decs : Stmt → NodeDecs
  | .assign _ _ _ d => d
  | .exprStmt _ d => d
  | .ifStmt _ _ d => d
  | .deferStmt _ d => d
  | .ret _ d => d

/-- Replace the decorations of a statement (in-place mutation in the source). -/
def Stmt.withDecs : Stmt → NodeDecs → Stmt
  | .assign l t r _, d => .assign l t r d
  | .exprStmt x _, d => .exprStmt x d
  | .ifStmt c b _, d => .ifStmt c b d
  | .deferStmt c _, d => .deferStmt c d
  | .ret r _, d => .ret r d

/-- dst.NewIdent / a bare identifier expression. -/
def identE (name : String) : Expr := Expr.ident { name := name }

/-- A function parameter (`dst.Field`). -/
structure Field where
  names : List String
  ty : Expr

/-- A function declaration (`dst.FuncDecl`) restricted to the parts the
    transforms read: its name, parameter list and body statement list. -/
structure FuncDecl where
  name : String
  params : List Field
  body : List Stmt

/-- The type-resolution oracle standing for `decorator.Package`:
    * `identUses` models `typeOfIdent` (`TypesInfo.Uses[...].Pkg().Path()`):
      the package path an identifier use resolves to, `""` when unknown;
    * `typeStrOf` models `TypesInfo.TypeOf(...).String()` on an expression,
      `""` when the node carries no type entry;
    * `callResult` models `TypesInfo.TypeOf` on a call expression found in the
      decorated-AST map, `none` when the call is not in the map (a node the
      transformer generated). -/
structure Pkg where
  identUses : Ident → String
  typeStrOf : Expr → String
  callResult : Expr → Option GoType

/-- A Package Index record: the stored declaration and the
    `tracedWithTransactionParameter` flag (spec section 3). -/
structure FunctionRecord where
  decl : FuncDecl
  traced : Bool

/-- The InstrumentationManager fields the transforms use. -/
structure Manager where
  appName : String
  agentVariableName : String
  imports : List String
  currentPackage : String
  index : List ((String × String) × FunctionRecord)
  pkg : Pkg

/-- manager.GetDecoratorPackage(). -/
def Manager.GetDecoratorPackage (m : Manager) : Pkg := m.pkg

/-- manager.AddImport: records the need to add an import to the current
    package (idempotent, spec section 4.1). -/
def Manager.AddImport (m : Manager) (path : String) : Manager :=
  if path ∈ m.imports then m else { m with imports := m.imports ++ [path] }

/-- The `dstutil.Cursor` state for the current statement: its index in the
    containing list (`-1` when there is no containing list) and the
    statements inserted around it. -/
structure Cursor where
  index : Int
  before : List Stmt := []
  after : List Stmt := []

/-- c.InsertBefore: successive calls accumulate in call order before the
    current node. -/
def Cursor.insertBefore (c : Cursor) (s : Stmt) : Cursor :=
  { c with before := c.before ++ [s] }

/-- c.InsertAfter: each call inserts directly after the current node, so a
    later call lands before an earlier one. -/
def Cursor.insertAfter (c : Cursor) (s : Stmt) : Cursor :=
  { c with after := s :: c.after }

/-! ## Constants of the transform file -/

def netHttpPath : String := "net/http"

def httpHandleFunc : String := "HandleFunc"
def httpMuxHandle : String := "Handle"
def httpDo : String := "Do"

def httpGet : String := "Get"
def httpPost : String := "Post"
def httpHead : String := "Head"
def httpPostForm : String := "PostForm"

def httpDefaultClientVariable : String := "DefaultClient"

/-- The agent import path; the constant is declared outside the files under
    verification, its value is pinned by the repository's tests. -/
def newrelicAgentImport : String := "github.com/newrelic/go-agent/v3/newrelic"

/-- Modelled from the spec: the default transaction variable name in `main`
    (`txn`, section 6 fixed literals); the constant is declared outside the
    files under verification. -/
def defaultTxnName : String := "txn"

/-! ## HTTP transform file: recognizers -/

/-- GetNetHttpMethod: the name of the `net/http` method invoked by a call
    expression, `""` when there is none.  `typeOfIdent` (the `Uses`-map
    lookup) is the `identUses` oracle. -/
def GetNetHttpMethod (n : Expr) (pkg : Pkg) : String :=
  match n with
  | .call fn _ =>
    match fn with
    | .sel _ s => if pkg.identUses s = netHttpPath then s.name else ""
    | .ident i => if pkg.identUses i = netHttpPath then i.name else ""
    | _ => ""
  | _ => ""

/-- GetNetHttpClientVariableName: the name of the variable holding an http
    client in the call expression, found through the receiver of a selector
    call; `""` when there is none. -/
def GetNetHttpClientVariableName (n : Expr) (pkg : Pkg) : String :=
  match n with
  | .call (.sel x _) _ =>
    match x with
    | .sel _ s => if pkg.identUses s = netHttpPath then s.name else ""
    | .ident i => if pkg.identUses i = netHttpPath then i.name else ""
    | _ => ""
  | _ => ""

/-- WrapHandleFunc on the expression node it receives: a two-argument
    `HandleFunc`/`Handle` call gets its argument list replaced by the single
    `WrapHandleFunc(agent, pattern, handler)` call (the cursor parameter of
    the source is unused there). -/
def WrapHandleFunc (n : Expr) (manager : Manager) : Expr :=
  match n with
  | .call fn args =>
    let funcName := GetNetHttpMethod (.call fn args) manager.GetDecoratorPackage
    if (funcName = httpHandleFunc ∨ funcName = httpMuxHandle) ∧ args.length = 2 then
      .call fn
        [.call (.ident { name := "WrapHandleFunc", path := newrelicAgentImport })
          (identE manager.agentVariableName :: args)]
    else .call fn args
  | _ => n

/-! ## HTTP transform file: handler instrumentation -/

/-- txnFromContext: the statement `txnVariable := newrelic.FromContext(r.Context())`,
    decorated with one empty line after it. -/
def txnFromContext (txnVariable : String) : Stmt :=
  .assign [identE txnVariable] Tok.DEFINE
    [.call (.ident { name := "FromContext", path := newrelicAgentImport })
      [.call (.sel (identE "r") { name := "Context" }) []]]
    { after := SpaceType.EmptyLine }

/-- defineTxnFromCtx: prepend the transaction-extraction statement to a
    function body. -/
def defineTxnFromCtx (fn : FuncDecl) (txnVariable : String) : FuncDecl :=
  { fn with body := txnFromContext txnVariable :: fn.body }

/-- isHttpHandler: exactly two parameters, one a package-qualified identifier
    typed `net/http.ResponseWriter`, one a star expression typed
    `*net/http.Request`.  The source additionally requires the decorated
    identifier's `ast` counterpart to be a selector expression, which holds
    exactly for package-qualified identifiers; that check is modelled by
    `i.path ≠ ""`. -/
def isHttpHandler (decl : FuncDecl) (pkg : Pkg) : Bool :=
  if decl.params.length = 2 then
    let step := fun (acc : Bool × Bool) (param : Field) =>
      match param.ty with
      | .ident i =>
        if i.path ≠ "" ∧ pkg.typeStrOf (.ident i) = "net/http.ResponseWriter" then
          (true, acc.2)
        else acc
      | .star x =>
        if pkg.typeStrOf (.star x) = "*net/http.Request" then (acc.1, true) else acc
      | _ => acc
    let rwreq := decl.params.foldl step (false, false)
    rwreq.1 ∧ rwreq.2
  else false

/-! ## HTTP transform file: client roundtripper injection -/

/-- injectRoundTripper: the statement
    `clientVariable.Transport = newrelic.NewRoundTripper(clientVariable.Transport)`
    (clones of the client expression are the expression itself in the value
    model), with the given spacing after it. -/
def injectRoundTripper (clientVariable : Expr) (spacingAfter : SpaceType) : Stmt :=
  .assign [.sel clientVariable { name := "Transport" }] Tok.ASSIGN
    [.call (.ident { name := "NewRoundTripper", path := newrelicAgentImport })
      [.sel clientVariable { name := "Transport" }]]
    { after := spacingAfter }

/-- isNetHttpClientDefinition: a single-name short variable declaration whose
    only right-hand side is `&Client{...}` with the composite literal typed by
    the ident `Client` of path `net/http`. -/
def isNetHttpClientDefinition (stmt : Stmt) : Bool :=
  match stmt with
  | .assign lhs tok rhs _ =>
    match rhs, lhs, tok with
    | [.unary Tok.AND (.composite (some (.ident i)) _)], [_], Tok.DEFINE =>
      i.name = "Client" ∧ i.path = netHttpPath
    | _, _, _ => false
  | _ => false

/-- InstrumentHttpClient: after a matched client definition, insert the
    roundtripper injection (carrying the definition's `After` spacing, which
    is cleared on the definition) and record the agent import.  Returns the
    (possibly updated) statement, manager and cursor. -/
def InstrumentHttpClient (n : Stmt) (manager : Manager) (c : Cursor) :
    Stmt × Manager × Cursor :=
  match n with
  | .assign lhs tok rhs decs =>
    if isNetHttpClientDefinition (.assign lhs tok rhs decs) ∧ 0 ≤ c.index then
      match lhs with
      | [clientVar] =>
        (.assign lhs tok rhs { decs with after := SpaceType.None },
         manager.AddImport newrelicAgentImport,
         c.insertAfter (injectRoundTripper clientVar decs.after))
      | _ => (n, manager, c)
    else (n, manager, c)
  | _ => (n, manager, c)

/-! ## HTTP transform file: warning comments for non-instrumentable methods -/

/-- cannotTraceOutboundHttp: the warning comment block for `method`, with a
    trailing `//` separator exactly when the node already has leading
    comments. -/
def cannotTraceOutboundHttp (method : String) (decs : NodeDecs) : List String :=
  let comment :=
    ["// the \"http." ++ method ++
       "()\" net/http method can not be instrumented and its outbound traffic can not be traced",
     "// please see these examples of code patterns for external http calls that can be instrumented:",
     "// https://docs.newrelic.com/docs/apm/agents/go-agent/configuration/distributed-tracing-go-agent/#make-http-requests"]
  if decs.start.length > 0 then comment ++ ["//"] else comment

mutual
/-- One step of the `dst.Inspect` walk of `isNetHttpMethodCannotInstrument`:
    a call whose `Fun` is an identifier of path `net/http` named
    `Get`/`Post`/`PostForm`/`Head` records its name and is not descended
    into; every other node is descended into, later matches overwriting
    earlier ones (the inspection callback keeps assigning the shared
    variables). -/
def cannotWalkE (acc : Option String) : Expr → Option String
  | .ident _ => acc
  | .basicLit _ _ => acc
  | .sel x _ => cannotWalkE acc x
  | .unary _ x => cannotWalkE acc x
  | .binary x _ y => cannotWalkE (cannotWalkE acc x) y
  | .star x => cannotWalkE acc x
  | .composite ty elems =>
    cannotWalkEs (match ty with | some t => cannotWalkE acc t | none => acc) elems
  | .call fn args =>
    match fn with
    | .ident i =>
      if i.path = netHttpPath ∧
          (i.name = httpGet ∨ i.name = httpPost ∨ i.name = httpPostForm ∨ i.name = httpHead) then
        some i.name
      else cannotWalkEs (cannotWalkE acc fn) args
    | _ => cannotWalkEs (cannotWalkE acc fn) args

def cannotWalkEs (acc : Option String) : List Expr → Option String
  | [] => acc
  | e :: es => cannotWalkEs (cannotWalkE acc e) es
end

/-- isNetHttpMethodCannotInstrument: only assignment and expression
    statements are inspected; the result is the method name found (last
    match of the walk) and whether one was found. -/
def isNetHttpMethodCannotInstrument (node : Stmt) : String × Bool :=
  let pack : Option String → String × Bool
    | some s => (s, true)
    | none => ("", false)
  match node with
  | .assign lhs _ rhs _ => pack (cannotWalkEs (cannotWalkEs none lhs) rhs)
  | .exprStmt x _ => pack (cannotWalkE none x)
  | _ => ("", false)

/-- CannotInstrumentHttpMethod: prepend the warning block to the statement's
    leading comments when a non-instrumentable method is found (the manager
    and cursor parameters are unused in the source as well). -/
def CannotInstrumentHttpMethod (n : Stmt) (manager : Manager) (c : Cursor) : Stmt :=
  let fo := isNetHttpMethodCannotInstrument n
  if fo.2 then
    n.withDecs { n.decs with start := cannotTraceOutboundHttp fo.1 n.decs ++ n.decs.start }
  else n

/-! ## HTTP transform file: external call instrumentation -/

/-- startExternalSegment: builds
    `segmentVar := newrelic.StartExternalSegment(txnVar, request)`, copying
    the preceding decorations (`Before`/`Start`) of the given node onto the
    new statement and clearing them on the node; returns the statement and
    the updated node decorations. -/
def startExternalSegment (request : Expr) (txnVar segmentVar : String)
    (nodeDecs : NodeDecs) : Stmt × NodeDecs :=
  (.assign [identE segmentVar] Tok.DEFINE
     [.call (.ident { name := "StartExternalSegment", path := newrelicAgentImport })
       [identE txnVar, request]]
     { before := nodeDecs.before, start := nodeDecs.start },
   { nodeDecs with before := SpaceType.None, start := [] })

/-- captureHttpResponse: `segmentVariable.Response = responseVariable`. -/
def captureHttpResponse (segmentVariable : String) (responseVariable : Expr) : Stmt :=
  .assign [.sel (identE segmentVariable) { name := "Response" }] Tok.ASSIGN
    [responseVariable] {}

/-- endExternalSegment: builds `segmentName.End()`, moving the trailing
    decorations (`After`/`End`) of the given node onto it; returns the
    statement and the updated node decorations. -/
def endExternalSegment (segmentName : String) (nodeDecs : NodeDecs) :
    Stmt × NodeDecs :=
  (.exprStmt (.call (.sel (identE segmentName) { name := "End" }) [])
     { after := nodeDecs.after, endc := nodeDecs.endc },
   { nodeDecs with after := SpaceType.None, endc := [] })

/-- addTxnToRequestContext: builds
    `request = newrelic.RequestWithTransactionContext(request, txnVar)`,
    copying the preceding decorations onto it and clearing them on the node;
    returns the statement and the updated node decorations. -/
def addTxnToRequestContext (request : Expr) (txnVar : String)
    (nodeDecs : NodeDecs) : Stmt × NodeDecs :=
  (.assign [request] Tok.ASSIGN
     [.call (.ident { name := "RequestWithTransactionContext", path := newrelicAgentImport })
       [request, identE txnVar]]
     { before := nodeDecs.before, start := nodeDecs.start },
   { nodeDecs with before := SpaceType.None, start := [] })

/-- The first left-hand-side expression of type `*net/http.Response`, in the
    order the `getHttpResponseVariable` inspection visits them. -/
def firstLhsResponse (pkg : Pkg) : List Expr → Option Expr
  | [] => none
  | e :: es =>
    if pkg.typeStrOf e = "*net/http.Response" then some e else firstLhsResponse pkg es

mutual
/-- The `dst.Inspect` walk of `getHttpResponseVariable` over a statement: an
    assignment statement whose left-hand side holds an expression of type
    `*net/http.Response` records that expression and is not descended into
    further (expressions cannot contain further assignment statements, so
    descending into a non-matching assignment finds nothing); nested
    statements are walked in order, later matches overwriting earlier ones. -/
def respWalkStmt (pkg : Pkg) (acc : Option Expr) : Stmt → Option Expr
  | .assign lhs _ _ _ =>
    match firstLhsResponse pkg lhs with
    | some e => some e
    | none => acc
  | .ifStmt _ body _ => respWalkStmts pkg acc body
  | _ => acc

def respWalkStmts (pkg : Pkg) (acc : Option Expr) : List Stmt → Option Expr
  | [] => acc
  | s :: ss => respWalkStmts pkg (respWalkStmt pkg acc s) ss
end

/-- getHttpResponseVariable: the expression of type `*net/http.Response`
    bound by the statement, when there is one. -/
def getHttpResponseVariable (manager : Manager) (stmt : Stmt) : Option Expr :=
  respWalkStmt manager.GetDecoratorPackage none stmt

mutual
/-- The `dst.Inspect` walk of `ExternalHttpCall` over an expression: a call
    recognized as the `net/http` `Do` method is recorded and not descended
    into; all other nodes are descended into, later matches overwriting
    earlier ones. -/
def findDoE (pkg : Pkg) (acc : Option Expr) : Expr → Option Expr
  | .ident _ => acc
  | .basicLit _ _ => acc
  | .sel x _ => findDoE pkg acc x
  | .unary _ x => findDoE pkg acc x
  | .binary x _ y => findDoE pkg (findDoE pkg acc x) y
  | .star x => findDoE pkg acc x
  | .composite ty elems =>
    findDoEs pkg (match ty with | some t => findDoE pkg acc t | none => acc) elems
  | .call fn args =>
    if GetNetHttpMethod (.call fn args) pkg = httpDo then some (.call fn args)
    else findDoEs pkg (findDoE pkg acc fn) args

def findDoEs (pkg : Pkg) (acc : Option Expr) : List Expr → Option Expr
  | [] => acc
  | e :: es => findDoEs pkg (findDoE pkg acc e) es
end

mutual
/-- The same walk over statements (`dst.Inspect` starts at the statement
    node): all constituent expressions and nested statements are visited in
    source order. -/
def findDoStmt (pkg : Pkg) (acc : Option Expr) : Stmt → Option Expr
  | .assign lhs _ rhs _ => findDoEs pkg (findDoEs pkg acc lhs) rhs
  | .exprStmt x _ => findDoE pkg acc x
  | .ifStmt cond body _ => findDoStmts pkg (findDoE pkg acc cond) body
  | .deferStmt cl _ => findDoE pkg acc cl
  | .ret results _ => findDoEs pkg acc results

def findDoStmts (pkg : Pkg) (acc : Option Expr) : List Stmt → Option Expr
  | [] => acc
  | s :: ss => findDoStmts pkg (findDoStmt pkg acc s) ss
end

/-- The argument list of a call expression. -/
def callArgsOf : Expr → List Expr
  | .call _ args => args
  | _ => []

/-- ExternalHttpCall: instruments a statement containing a `net/http` `Do`
    call.  A negative cursor index returns immediately; a call through
    `http.DefaultClient` is bracketed with an external segment (capturing a
    bound `*net/http.Response` when present); any other receiver gets
    `request = newrelic.RequestWithTransactionContext(request, txn)` inserted
    before the statement.  `none` models the source's unguarded
    `call.Args[0]` read panicking on a matched call without arguments.
    Returns the reported modification flag, the statement (with migrated
    decorations), the cursor and the manager. -/
def ExternalHttpCall (manager : Manager) (stmt : Stmt) (c : Cursor)
    (txnName : String) : Option (Bool × Stmt × Cursor × Manager) :=
  if c.index < 0 then some (false, stmt, c, manager) else
  let pkg := manager.GetDecoratorPackage
  match findDoStmt pkg none stmt with
  | none => some (false, stmt, c, manager)
  | some call =>
    -- the source rechecks `c.Index() >= 0` here, subsumed by the early return
    let clientVar := GetNetHttpClientVariableName call pkg
    match (callArgsOf call).head? with
    | none => none
    | some requestObject =>
      if clientVar = httpDefaultClientVariable then
        let segmentName := "externalSegment"
        let startd := startExternalSegment requestObject txnName segmentName stmt.decs
        let c1 := c.insertBefore startd.1
        let endd := endExternalSegment segmentName startd.2
        let c2 := c1.insertAfter endd.1
        let stmt1 := stmt.withDecs endd.2
        let responseVar := getHttpResponseVariable manager stmt1
        let manager1 := manager.AddImport newrelicAgentImport
        match responseVar with
        | some rv => some (true, stmt1, c2.insertAfter (captureHttpResponse segmentName rv), manager1)
        | none => some (true, stmt1, c2, manager1)
      else
        let addd := addTxnToRequestContext requestObject txnName stmt.decs
        some (true, stmt.withDecs addd.2, c.insertBefore addd.1,
              manager.AddImport newrelicAgentImport)

/-! ## parser/agent.go: code generation -/

/-- A Go string literal for `name` (the source concatenates quotes /
    `fmt.Sprintf` with a quoted verb). -/
def goQuote (s : String) : String := "\"" ++ s ++ "\""

/-- panicOnError: the `if err != nil { panic(err) }` block, with one empty
    line after it. -/
def panicOnError : Stmt :=
  .ifStmt (.binary (identE "err") Tok.NEQ (identE "nil"))
    [.exprStmt (.call (identE "panic") [identE "err"]) {}]
    { after := SpaceType.EmptyLine }

/-- The `agentInit` statement of createAgentAST:
    `AgentVariableName, err := newrelic.NewApplication(...)` — with
    `newrelic.ConfigAppName("AppName")` prepended to the argument list
    exactly when the application name is non-empty, always followed by
    `newrelic.ConfigFromEnvironment()`. -/
def agentInitStmt (AppName AgentVariableName : String) : Stmt :=
  let base := [Expr.call (.ident { name := "ConfigFromEnvironment", path := newrelicAgentImport }) []]
  let newappArgs :=
    if AppName ≠ "" then
      Expr.call (.ident { name := "ConfigAppName", path := newrelicAgentImport })
        [.basicLit Tok.STRING (goQuote AppName)] :: base
    else base
  .assign [identE AgentVariableName, identE "err"] Tok.DEFINE
    [.call (.ident { name := "NewApplication", path := newrelicAgentImport }) newappArgs] {}

/-- createAgentAST: the agent-initialization assignment followed by the
    panic-on-error block. -/
def createAgentAST (AppName AgentVariableName : String) : List Stmt :=
  [agentInitStmt AppName AgentVariableName, panicOnError]

/-- shutdownAgent: the plain expression statement
    `AgentVariableName.Shutdown(5 * time.Second)`, with one empty line
    before it.  Note: an `ExprStmt`, not a `defer` statement. -/
def shutdownAgent (AgentVariableName : String) : Stmt :=
  .exprStmt
    (.call (.sel (identE AgentVariableName) { name := "Shutdown" })
      [.binary (.basicLit Tok.INT "5") Tok.MUL (.ident { name := "Second", path := "time" })])
    { before := SpaceType.EmptyLine }

/-- startTransaction: `txnVar := app.StartTransaction("name")`, an
    assignment (`=`) instead of a definition (`:=`) when overwriting. -/
def startTransaction (appVariableName transactionVariableName transactionName : String)
    (overwriteVariable : Bool) : Stmt :=
  .assign [identE transactionVariableName]
    (if overwriteVariable then Tok.ASSIGN else Tok.DEFINE)
    [.call (.sel (identE appVariableName) { name := "StartTransaction" })
      [.basicLit Tok.STRING (goQuote transactionName)]] {}

/-- endTransaction: `txnVar.End()`. -/
def endTransaction (transactionVariableName : String) : Stmt :=
  .exprStmt (.call (.sel (identE transactionVariableName) { name := "End" }) []) {}

/-! ## parser/agent.go: error recognition -/

/-- isNamedError: a named type with no declaring package, named `error`. -/
def isNamedError : GoType → Bool
  | .named p n => p.isNone ∧ n = "error"
  | _ => false

/-- errorReturnIndex: the index of the first `error` return of a call, with
    a found-flag; `(0, false)` when the call carries no type information or
    returns no error. -/
def errorReturnIndex (v : Expr) (pkg : Pkg) : Nat × Bool :=
  match pkg.callResult v with
  | some ty =>
    match ty with
    | .named p n => if isNamedError (.named p n) then (0, true) else (0, false)
    | .tuple elems =>
      match elems.findIdx? isNamedError with
      | some i => (i, true)
      | none => (0, false)
    | .other _ => (0, false)
  | none => (0, false)

/-- isNewRelicMethod: a selector call whose receiver is the identifier
    `newrelic`, or a bare-identifier call whose dst path is the agent import. -/
def isNewRelicMethod (call : Expr) : Bool :=
  match call with
  | .call (.sel x _) _ =>
    match x with
    | .ident i => i.name = "newrelic"
    | _ => false
  | .call (.ident i) _ => i.path = newrelicAgentImport
  | _ => false

/-- generateNoticeError: builds `txnName.NoticeError(errVariableName)`,
    moving the trailing decorations (`After`/`End`) of the given node onto
    it; returns the statement and the updated node decorations. -/
def generateNoticeError (errVariableName txnName : String) (nodeDecs : NodeDecs) :
    Stmt × NodeDecs :=
  (.exprStmt
     (.call (.sel (identE txnName) { name := "NoticeError" }) [identE errVariableName])
     { after := nodeDecs.after, endc := nodeDecs.endc },
   { nodeDecs with after := SpaceType.None, endc := [] })

/-- findErrorVariable: for an assignment whose single right-hand side is a
    call to a non-agent callee returning an error, the name of the
    left-hand-side expression at the error index when it is an identifier,
    `""` otherwise; `none` models `stmt.Lhs[errIndex]` panicking when the
    index is out of range (unreachable on type-correct Go, where the
    left-hand side has one name per returned value). -/
def findErrorVariable (stmtLhs stmtRhs : List Expr) (pkg : Pkg) : Option String :=
  match stmtRhs with
  | [rhs0] =>
    match rhs0 with
    | .call fn args =>
      if ¬ isNewRelicMethod (.call fn args) then
        match errorReturnIndex (.call fn args) pkg with
        | (errIndex, true) =>
          match stmtLhs.get? errIndex with
          | some expr =>
            match expr with
            | .ident i => some i.name
            | _ => some ""
          | none => none
        | (_, false) => some ""
      else some ""
    | _ => some ""
  | _ => some ""

/-- NoticeError: on an assignment binding an error variable (and a valid
    cursor index), insert `txnName.NoticeError(errVar)` right after the
    statement, migrating the trailing decorations; every other statement is
    returned unchanged with `false`.  `none` models the out-of-range panic
    of `findErrorVariable`. -/
def NoticeError (manager : Manager) (stmt : Stmt) (c : Cursor) (txnName : String) :
    Option (Bool × Stmt × Cursor) :=
  match stmt with
  | .assign lhs tok rhs decs =>
    match findErrorVariable lhs rhs manager.GetDecoratorPackage with
    | none => none
    | some errVar =>
      if errVar ≠ "" ∧ 0 ≤ c.index then
        let gen := generateNoticeError errVar txnName decs
        some (true, .assign lhs tok rhs gen.2, c.insertAfter gen.1)
      else some (false, stmt, c)
  | _ => some (false, stmt, c)

/-! ## parser/agent.go: InstrumentMain

`InstrumentMain` drives the tracing of user functions invoked from `main`
through the Package Index and the Function Tracer, which live outside the
sources under verification; those collaborators are modelled from the spec
below and, for the tracer, abstracted as a parameter that may update the
manager. -/

/-- Modelled from the spec (section 4.1): `GetPackageFunctionInvocation`
    "identifies whether a statement's top-level expression is a direct call
    to a user function present in the index"; identities are (package path,
    function name), a plain identifier resolving in the current package
    (builtins have no package and plain dst identifiers have an empty path,
    spec section 6). -/
def GetPackageFunctionInvocation (m : Manager) (s : Stmt) : Option (String × String) :=
  match s with
  | .exprStmt (.call (.ident i) _) _ =>
    let p := if i.path = "" then m.currentPackage else i.path
    if (m.index.lookup (p, i.name)).isSome then some (p, i.name) else none
  | _ => none

/-- Modelled from the spec (section 4.1): true iff the invocation is user
    code in the index and its record is not yet
    `tracedWithTransactionParameter`. -/
def ShouldInstrumentFunction (m : Manager) (inv : Option (String × String)) : Bool :=
  match inv with
  | some fid =>
    match m.index.lookup fid with
    | some record => !record.traced
    | none => false
  | none => false

/-- Modelled from the spec (section 4.1): true iff the invocation is user
    code in the index, its record is now traced, and the call site has not
    yet been given the transaction argument. -/
def RequiresTransactionArgument (m : Manager) (inv : Option (String × String))
    (args : List Expr) (txnName : String) : Bool :=
  match inv with
  | some fid =>
    match m.index.lookup fid with
    | some record =>
      record.traced &&
        !(args.any fun a =>
            match a with
            | .ident i => i.name = txnName ∧ i.path = ""
            | _ => false)
    | none => false
  | none => false

/-- Modelled from the spec (sections 4.1 and 4.6): a stand-in for the
    tracing block `InstrumentMain` runs on a not-yet-traced user invocation
    (`SetPackage` / `GetDeclaration` / `TraceFunction` /
    `AddTxnArgumentToFunctionDecl` / `AddImport` / `SetPackage` back); the
    Function Tracer is outside the sources under verification, so only its
    effect on the manager is kept, as an arbitrary function. -/
def TraceStub : Type := Manager → String × String → Manager

mutual
/-- One step of the `dstutil.Apply` callback of `InstrumentMain` on a
    statement of the (already bookended) body, returning the statement list
    replacing it (inserted transaction start/end around it when the callee
    requires an argument), the updated manager and the
    transaction-started flag.  Expression statements are the only nodes the
    callback rewrites; nested statement lists are walked recursively as the
    traversal does. -/
def instrMainStmt (tr : TraceStub) (m : Manager) (ts : Bool) :
    Stmt → List Stmt × Manager × Bool
  | .exprStmt x decs =>
    let inv := GetPackageFunctionInvocation m (.exprStmt x decs)
    let m1 := match inv with
      | some fid => if ShouldInstrumentFunction m (some fid) then tr m fid else m
      | none => m
    match x with
    | .call fn args =>
      if RequiresTransactionArgument m1 inv args defaultTxnName then
        match inv with
        | some fid =>
          let args1 := args ++ [identE defaultTxnName]
          ([startTransaction m1.agentVariableName defaultTxnName fid.2 ts,
            .exprStmt (WrapHandleFunc (.call fn args1) m1) decs,
            endTransaction defaultTxnName], m1, true)
        | none => ([.exprStmt (WrapHandleFunc (.call fn args) m1) decs], m1, ts)
      else ([.exprStmt (WrapHandleFunc (.call fn args) m1) decs], m1, ts)
    | _ => ([.exprStmt (WrapHandleFunc x m1) decs], m1, ts)
  | .ifStmt cond body decs =>
    let inner := instrMainStmts tr m ts body
    ([.ifStmt cond inner.1 decs], inner.2.1, inner.2.2)
  | s => ([s], m, ts)

def instrMainStmts (tr : TraceStub) (m : Manager) (ts : Bool) :
    List Stmt → List Stmt × Manager × Bool
  | [] => ([], m, ts)
  | s :: rest =>
    let first := instrMainStmt tr m ts s
    let restr := instrMainStmts tr first.2.1 first.2.2 rest
    (first.1 ++ restr.1, restr.2)
end

/-- InstrumentMain: on the function declaration named `main`, prepend the
    agent bootstrap, append the shutdown call, record the agent import, and
    run the inner traversal that traces user invocations and wraps handler
    registrations. -/
def InstrumentMain (tr : TraceStub) (mainFunctionNode : FuncDecl) (manager : Manager) :
    FuncDecl × Manager :=
  if mainFunctionNode.name = "main" then
    let body0 := createAgentAST manager.appName manager.agentVariableName ++
      mainFunctionNode.body ++ [shutdownAgent manager.agentVariableName]
    let m0 := manager.AddImport newrelicAgentImport
    let walked := instrMainStmts tr m0 false body0
    ({ mainFunctionNode with body := walked.1 }, walked.2.1)
  else (mainFunctionNode, manager)

/-! ## HTTP transform file: InstrumentHandleFunction -/

/-- Modelled from the spec (section 4.1): `UpdateFunctionDeclaration`
    replaces the stored node reference for the declaration's identity in the
    current package, preserving flags. -/
def UpdateFunctionDeclaration (m : Manager) (d : FuncDecl) : Manager :=
  { m with index := m.index.map fun entry =>
      if entry.1 = (m.currentPackage, d.name) then (entry.1, { entry.2 with decl := d })
      else entry }

/-- InstrumentHandleFunction: on an HTTP handler declaration, run the
    Function Tracer (a parameter here: `TraceFunction` lives outside the
    sources under verification; per the spec section 4.6 it returns the
    possibly-rewritten declaration, a modified-flag, and updates the
    manager) with transaction name `nrTxn`; when it reports a modification,
    prepend the transaction-from-context binding and store the new
    declaration.  The returned declaration is the one the tree holds
    afterwards (the source mutates the node in place). -/
def InstrumentHandleFunction
    (TraceFunction : Manager → FuncDecl → String → FuncDecl × Bool × Manager)
    (n : FuncDecl) (manager : Manager) : FuncDecl × Manager :=
  if isHttpHandler n manager.GetDecoratorPackage then
    let txnName := "nrTxn"
    let traced := TraceFunction manager n txnName
    if traced.2.1 then
      let newFn := defineTxnFromCtx traced.1 txnName
      (newFn, UpdateFunctionDeclaration traced.2.2 newFn)
    else (traced.1, traced.2.2)
  else (n, manager)

/-! ## Helper predicates and shared lemmas -/

/-- Whether a statement is an assignment statement. -/
def Stmt.isAssign : Stmt → Bool
  | .assign _ _ _ _ => true
  | _ => false

/-- Whether a statement is an expression statement. -/
def Stmt.isExprStmt : Stmt → Bool
  | .exprStmt _ _ => true
  | _ => false

/-- Whether a statement is a `defer` statement. -/
def Stmt.isDeferStmt : Stmt → Bool
  | .deferStmt _ _ => true
  | _ => false

theorem decs_withDecs (s : Stmt) (d : NodeDecs) : (s.withDecs d).decs = d := by
  cases s <;> rfl

theorem isNetHttpMethodCannotInstrument_withDecs (s : Stmt) (d : NodeDecs) :
    isNetHttpMethodCannotInstrument (s.withDecs d) = isNetHttpMethodCannotInstrument s := by
  cases s <;> rfl

theorem cannotTraceOutboundHttp_length (method : String) (decs : NodeDecs) :
    (cannotTraceOutboundHttp method decs).length =
      if decs.start.length > 0 then 4 else 3 := by
  unfold cannotTraceOutboundHttp
  split <;> rfl

theorem isNetHttpClientDefinition_withDecs (s : Stmt) (d : NodeDecs) :
    isNetHttpClientDefinition (s.withDecs d) = isNetHttpClientDefinition s := by
  cases s <;> rfl

theorem getHttpResponseVariable_withDecs (m : Manager) (s : Stmt) (d : NodeDecs) :
    getHttpResponseVariable m (s.withDecs d) = getHttpResponseVariable m s := by
  cases s <;> rfl

/-- A trivial type oracle: no identifier resolves, no node has a type. -/
def trivialPkg : Pkg :=
  { identUses := fun _ => "", typeStrOf := fun _ => "", callResult := fun _ => none }

/-- A minimal manager over the trivial oracle. -/
def mgr0 : Manager :=
  { appName := "", agentVariableName := "agent", imports := [],
    currentPackage := "main", index := [], pkg := trivialPkg }

/-- A cursor at a valid index with no insertions yet. -/
def cur0 : Cursor := { index := 0 }

/-! ## Claim C7 -/

/-- Claim C7: for every statement whose cursor index is negative, `NoticeError`
    and `ExternalHttpCall` perform no insertion, leave the statement
    unchanged, and return false.  (The totality hypothesis excludes the
    left-hand-side indexing panic of `findErrorVariable`, unreachable on
    type-correct input, which would fire before the index test.) -/
theorem c7_negative_index_noop (m : Manager) (s : Stmt) (c : Cursor) (txn : String)
    (hidx : c.index < 0)
    (htotal : ∀ lhs tok rhs decs, s = .assign lhs tok rhs decs →
      (findErrorVariable lhs rhs m.GetDecoratorPackage).isSome = true) :
    NoticeError m s c txn = some (false, s, c) ∧
    ExternalHttpCall m s c txn = some (false, s, c, m) := by
  constructor
  · cases s with
    | assign lhs tok rhs decs =>
      have h := htotal lhs tok rhs decs rfl
      simp only [NoticeError]
      match hfv : findErrorVariable lhs rhs m.GetDecoratorPackage with
      | none => rw [hfv] at h; simp at h
      | some ev =>
        have hcond : ¬ (ev ≠ "" ∧ 0 ≤ c.index) := by
          rintro ⟨-, hge⟩
          omega
        simp [hcond]
    | exprStmt x decs => rfl
    | ifStmt cond body decs => rfl
    | deferStmt cl decs => rfl
    | ret results decs => rfl
  · unfold ExternalHttpCall
    simp [hidx]

/-- Witness for C7 at a return statement and cursor index `-1`. -/
theorem c7_witness :
    NoticeError mgr0 (Stmt.ret [] {}) { index := -1 } "txn" =
      some (false, Stmt.ret [] {}, { index := -1 }) ∧
    ExternalHttpCall mgr0 (Stmt.ret [] {}) { index := -1 } "txn" =
      some (false, Stmt.ret [] {}, { index := -1 }, mgr0) :=
  c7_negative_index_noop mgr0 (Stmt.ret [] {}) { index := -1 } "txn" (by decide)
    (fun lhs tok rhs decs h => by cases h)

/-! ## Claim C3 -/

theorem noticeError_fires (m : Manager) (c : Cursor) (txn : String)
    (lhs : List Expr) (tok : Tok) (fn : Expr) (args : List Expr) (decs : NodeDecs)
    (i : Nat) (eid : Ident)
    (hnr : isNewRelicMethod (.call fn args) = false)
    (herr : errorReturnIndex (.call fn args) m.GetDecoratorPackage = (i, true))
    (hget : lhs.get? i = some (.ident eid))
    (hname : eid.name ≠ "")
    (hidx : 0 ≤ c.index) :
    NoticeError m (.assign lhs tok [.call fn args] decs) c txn =
      some (true,
        .assign lhs tok [.call fn args]
          { decs with after := SpaceType.None, endc := [] },
        c.insertAfter (.exprStmt
          (.call (.sel (identE txn) { name := "NoticeError" }) [identE eid.name])
          { after := decs.after, endc := decs.endc })) := by
  have hfv : findErrorVariable lhs [.call fn args] m.GetDecoratorPackage = some eid.name := by
    simp only [findErrorVariable, hnr, Bool.false_eq_true, not_false_iff, if_true, herr, hget]
  simp only [NoticeError]
  rw [hfv]
  simp only [ne_eq, hname, not_false_iff, true_and, hidx, if_true]
  rfl

/-- Claim C3: `NoticeError` fires exactly on assignments whose single
    right-hand side is a call to a non-agent callee returning a value of the
    named type `error` (at the index of the first error-typed return, whose
    left-hand-side expression is an identifier) at a non-negative cursor
    index, inserting `txn.NoticeError(errIdent)` immediately after the
    assignment with the trailing decorations migrated; every other statement
    is returned unchanged with `false`.  The last conjunct states that the
    matched index is that of the first error-typed return. -/
theorem c3_noticeError_spec (m : Manager) (s : Stmt) (c : Cursor) (txn : String) :
    (∀ lhs tok fn args decs i eid,
      s = .assign lhs tok [.call fn args] decs →
      isNewRelicMethod (.call fn args) = false →
      errorReturnIndex (.call fn args) m.GetDecoratorPackage = (i, true) →
      lhs.get? i = some (.ident eid) →
      eid.name ≠ "" →
      0 ≤ c.index →
      NoticeError m s c txn =
        some (true,
          .assign lhs tok [.call fn args]
            { decs with after := SpaceType.None, endc := [] },
          c.insertAfter (.exprStmt
            (.call (.sel (identE txn) { name := "NoticeError" }) [identE eid.name])
            { after := decs.after, endc := decs.endc }))) ∧
    (s.isAssign = false → NoticeError m s c txn = some (false, s, c)) ∧
    (∀ lhs tok rhs decs,
      s = .assign lhs tok rhs decs →
      findErrorVariable lhs rhs m.GetDecoratorPackage = some "" →
      NoticeError m s c txn = some (false, s, c)) ∧
    (∀ lhs tok rhs decs ev,
      s = .assign lhs tok rhs decs →
      findErrorVariable lhs rhs m.GetDecoratorPackage = some ev →
      c.index < 0 →
      NoticeError m s c txn = some (false, s, c)) ∧
    (∀ e elems i,
      m.GetDecoratorPackage.callResult e = some (.tuple elems) →
      errorReturnIndex e m.GetDecoratorPackage = (i, true) →
      ∃ h : i < elems.length, isNamedError (elems.get ⟨i, h⟩) = true ∧
        ∀ j (hj : j < i), isNamedError (elems.get ⟨j, Nat.lt_trans hj h⟩) = false) := by
  refine ⟨?_, ?_, ?_, ?_, ?_⟩
  · rintro lhs tok fn args decs i eid rfl hnr herr hget hname hidx
    exact noticeError_fires m c txn lhs tok fn args decs i eid hnr herr hget hname hidx
  · intro hna
    cases s <;> simp_all [Stmt.isAssign] <;> rfl
  · rintro lhs tok rhs decs rfl hfv
    simp only [NoticeError]
    rw [hfv]
    simp
  · rintro lhs tok rhs decs ev rfl hfv hidx
    simp only [NoticeError]
    rw [hfv]
    have hcond : ¬ (ev ≠ "" ∧ 0 ≤ c.index) := by
      rintro ⟨-, hge⟩
      omega
    simp [hcond]
  · intro e elems i hres herr
    have hcalc : errorReturnIndex e m.GetDecoratorPackage
        = match elems.findIdx? isNamedError with
          | some j => (j, true)
          | none => (0, false) := by
      unfold errorReturnIndex
      rw [hres]
    rw [hcalc] at herr
    match hidx : elems.findIdx? isNamedError with
    | none => rw [hidx] at herr; simp at herr
    | some i0 =>
      rw [hidx] at herr
      have hii : i0 = i := by simpa using congrArg Prod.fst herr
      subst hii
      rw [List.findIdx?_eq_some_iff_getElem] at hidx
      obtain ⟨hlt, hp, hleast⟩ := hidx
      refine ⟨hlt, by simpa using hp, ?_⟩
      intro j hj
      have := hleast j hj
      simpa using this

/-- The oracle for the C3/C9 witnesses: the witnessed call returns
    `(string, error)`. -/
def pkgErr : Pkg :=
  { identUses := fun _ => "",
    typeStrOf := fun _ => "",
    callResult := fun _ => some (.tuple [.other "string", .named none "error"]) }

/-- A manager over the `(string, error)` oracle. -/
def mgrErr : Manager := { mgr0 with pkg := pkgErr }

/-- Witness for C3: `v, err := f()` gets `txn.NoticeError(err)` inserted
    after it, with the trailing comment migrated. -/
theorem c3_witness :
    NoticeError mgrErr
      (.assign [identE "v", identE "err"] Tok.DEFINE [.call (identE "f") []]
        { after := SpaceType.NewLine, endc := ["// trailing"] })
      cur0 "txn" =
    some (true,
      .assign [identE "v", identE "err"] Tok.DEFINE [.call (identE "f") []]
        { after := SpaceType.None, endc := [] },
      cur0.insertAfter (.exprStmt
        (.call (.sel (identE "txn") { name := "NoticeError" }) [identE "err"])
        { after := SpaceType.NewLine, endc := ["// trailing"] })) :=
  (c3_noticeError_spec mgrErr
      (.assign [identE "v", identE "err"] Tok.DEFINE [.call (identE "f") []]
        { after := SpaceType.NewLine, endc := ["// trailing"] })
      cur0 "txn").1
    [identE "v", identE "err"] Tok.DEFINE (identE "f") []
    { after := SpaceType.NewLine, endc := ["// trailing"] } 1 { name := "err" }
    rfl rfl rfl rfl (by decide) (by decide)

/-! ## Claim C9 -/

/-- Claim C9: when the first error-typed return of the single right-hand-side
    call is bound to the blank identifier `_`, `NoticeError` still fires and
    inserts `txn.NoticeError(_)`: the blank identifier is not excluded. -/
theorem c9_noticeError_blank_ident (m : Manager) (s : Stmt) (c : Cursor)
    (txn : String) (lhs : List Expr) (tok : Tok) (fn : Expr) (args : List Expr)
    (decs : NodeDecs) (i : Nat) (eid : Ident)
    (hs : s = .assign lhs tok [.call fn args] decs)
    (hnr : isNewRelicMethod (.call fn args) = false)
    (herr : errorReturnIndex (.call fn args) m.GetDecoratorPackage = (i, true))
    (hget : lhs.get? i = some (.ident eid))
    (hblank : eid.name = "_")
    (hidx : 0 ≤ c.index) :
    NoticeError m s c txn =
      some (true,
        .assign lhs tok [.call fn args]
          { decs with after := SpaceType.None, endc := [] },
        c.insertAfter (.exprStmt
          (.call (.sel (identE txn) { name := "NoticeError" }) [identE "_"])
          { after := decs.after, endc := decs.endc })) := by
  subst hs
  have := noticeError_fires m c txn lhs tok fn args decs i eid hnr herr hget
    (by rw [hblank]; decide) hidx
  rw [hblank] at this
  exact this

/-- Witness for C9: `resp, _ := f()` (error at index 1 bound to `_`) gets
    `txn.NoticeError(_)` inserted. -/
theorem c9_witness :
    NoticeError mgrErr
      (.assign [identE "resp", identE "_"] Tok.DEFINE [.call (identE "f") []] {})
      cur0 "txn" =
    some (true,
      .assign [identE "resp", identE "_"] Tok.DEFINE [.call (identE "f") []]
        { after := SpaceType.None, endc := [] },
      cur0.insertAfter (.exprStmt
        (.call (.sel (identE "txn") { name := "NoticeError" }) [identE "_"]) {})) := by
  have := c9_noticeError_blank_ident mgrErr
      (.assign [identE "resp", identE "_"] Tok.DEFINE [.call (identE "f") []] {})
      cur0 "txn" [identE "resp", identE "_"] Tok.DEFINE (identE "f") [] {} 1
      { name := "_" } rfl rfl rfl rfl rfl (by decide)
  simpa using this

/-! ## Claim C5 -/

mutual
/-- Spec-side predicate, following the claim's own words: the statement's
    expression subtree contains a call to one of the HTTP library's
    non-instrumentable outbound methods `Get`, `Post`, `Head`, `PostForm`
    (to be compared against the source's `isNetHttpMethodCannotInstrument`,
    which restricts the statement kind). -/
def specContainsUninstrumentableE : Expr → Bool
  | .ident _ => false
  | .basicLit _ _ => false
  | .sel x _ => specContainsUninstrumentableE x
  | .unary _ x => specContainsUninstrumentableE x
  | .binary x _ y => specContainsUninstrumentableE x || specContainsUninstrumentableE y
  | .star x => specContainsUninstrumentableE x
  | .composite ty elems =>
    (match ty with | some t => specContainsUninstrumentableE t | none => false) ||
      specContainsUninstrumentableEs elems
  | .call fn args =>
    (match fn with
     | .ident i =>
       i.path = netHttpPath ∧
         (i.name = httpGet ∨ i.name = httpPost ∨ i.name = httpPostForm ∨ i.name = httpHead)
     | _ => false) ||
      (specContainsUninstrumentableE fn || specContainsUninstrumentableEs args)

def specContainsUninstrumentableEs : List Expr → Bool
  | [] => false
  | e :: es => specContainsUninstrumentableE e || specContainsUninstrumentableEs es
end

mutual
/-- The spec-side containment predicate on statements of every kind. -/
def specStmtContainsUninstrumentableCall : Stmt → Bool
  | .assign lhs _ rhs _ =>
    specContainsUninstrumentableEs lhs || specContainsUninstrumentableEs rhs
  | .exprStmt x _ => specContainsUninstrumentableE x
  | .ifStmt cond body _ =>
    specContainsUninstrumentableE cond || specStmtsContainUninstrumentableCall body
  | .deferStmt cl _ => specContainsUninstrumentableE cl
  | .ret results _ => specContainsUninstrumentableEs results

def specStmtsContainUninstrumentableCall : List Stmt → Bool
  | [] => false
  | s :: ss => specStmtContainsUninstrumentableCall s || specStmtsContainUninstrumentableCall ss
end

/-- An `if` statement whose condition contains a plain `http.Get` call. -/
def ifWithGet : Stmt :=
  .ifStmt
    (.binary
      (.call (.ident { name := "Get", path := netHttpPath })
        [.basicLit Tok.STRING "\"http://example.com\""])
      Tok.NEQ (identE "nil"))
    [] {}

/-- Claim C5 counterexample: an `if` statement whose expression subtree
    contains a call to `http.Get` is left completely unchanged by
    `CannotInstrumentHttpMethod` — no warning comments are prepended — because
    the source inspects only assignment and expression statements. -/
theorem c5_counterexample :
    specStmtContainsUninstrumentableCall ifWithGet = true ∧
    CannotInstrumentHttpMethod ifWithGet mgr0 cur0 = ifWithGet :=
  ⟨rfl, rfl⟩

/-- Claim C5 (amended): for every assignment or expression statement whose
    expression subtree contains a call to `Get`/`Post`/`Head`/`PostForm` of
    the HTTP library (the source's recognizer), `CannotInstrumentHttpMethod`
    prepends the three fixed warning lines, followed by one extra `//` line
    exactly when the statement already had leading comments; unrecognized
    statements — in particular every statement that is neither an assignment
    nor an expression statement — are left unchanged. -/
theorem c5_cannotInstrumentHttpMethod_spec (m : Manager) (c : Cursor) (s : Stmt)
    (nm : String) :
    (isNetHttpMethodCannotInstrument s = (nm, true) →
      CannotInstrumentHttpMethod s m c =
        s.withDecs { s.decs with start :=
          (["// the \"http." ++ nm ++
              "()\" net/http method can not be instrumented and its outbound traffic can not be traced",
            "// please see these examples of code patterns for external http calls that can be instrumented:",
            "// https://docs.newrelic.com/docs/apm/agents/go-agent/configuration/distributed-tracing-go-agent/#make-http-requests"]
            ++ (if s.decs.start.length > 0 then ["//"] else []))
            ++ s.decs.start }) ∧
    ((isNetHttpMethodCannotInstrument s).2 = false →
      CannotInstrumentHttpMethod s m c = s) ∧
    (s.isAssign = false → s.isExprStmt = false →
      CannotInstrumentHttpMethod s m c = s) := by
  refine ⟨?_, ?_, ?_⟩
  · intro h
    unfold CannotInstrumentHttpMethod
    rw [h]
    simp only [if_true]
    unfold cannotTraceOutboundHttp
    split <;> simp
  · intro h
    unfold CannotInstrumentHttpMethod
    simp [h]
  · intro h1 h2
    have hfalse : (isNetHttpMethodCannotInstrument s).2 = false := by
      cases s <;> simp_all [Stmt.isAssign, Stmt.isExprStmt, isNetHttpMethodCannotInstrument]
    unfold CannotInstrumentHttpMethod
    simp [hfalse]

/-- Witness for C5 (amended) at `http.Get("http://example.com")` carrying one
    pre-existing leading comment, which triggers the `//` separator. -/
theorem c5_witness :
    CannotInstrumentHttpMethod
      (.exprStmt
        (.call (.ident { name := "Get", path := netHttpPath })
          [.basicLit Tok.STRING "\"http://example.com\""])
        { start := ["// existing comment"] }) mgr0 cur0 =
    .exprStmt
      (.call (.ident { name := "Get", path := netHttpPath })
        [.basicLit Tok.STRING "\"http://example.com\""])
      { start :=
          ["// the \"http.Get()\" net/http method can not be instrumented and its outbound traffic can not be traced",
           "// please see these examples of code patterns for external http calls that can be instrumented:",
           "// https://docs.newrelic.com/docs/apm/agents/go-agent/configuration/distributed-tracing-go-agent/#make-http-requests",
           "//",
           "// existing comment"] } := by
  have := (c5_cannotInstrumentHttpMethod_spec mgr0 cur0
      (.exprStmt
        (.call (.ident { name := "Get", path := netHttpPath })
          [.basicLit Tok.STRING "\"http://example.com\""])
        { start := ["// existing comment"] }) "Get").1 rfl
  simpa using this

/-! ## Claim C6 -/

/-- The statement `info.client := &http.Client{}` — a client definition whose
    left-hand side is a selector, not an identifier (the repository's own
    test `complex client definition` exercises it). -/
def selectorClientDef : Stmt :=
  .assign [.sel (identE "info") { name := "client" }] Tok.DEFINE
    [.unary Tok.AND (.composite (some (.ident { name := "Client", path := netHttpPath })) [])]
    {}

/-- Claim C6 counterexample: `InstrumentHttpClient` also rewrites a client
    definition whose left-hand side is a selector rather than an identifier,
    inserting `info.client.Transport = NewRoundTripper(info.client.Transport)`
    — contradicting the claim that no statement shape other than
    `ident := &Client{...}` is modified. -/
theorem c6_counterexample :
    (InstrumentHttpClient selectorClientDef mgr0 cur0).2.2.after =
      [injectRoundTripper (Expr.sel (identE "info") { name := "client" }) SpaceType.None] :=
  rfl

/-- Claim C6 (amended): for every short variable declaration with a single
    left-hand side (of any expression form) whose single right-hand side is
    `&Client{...}` with the HTTP library's `Client`, at a non-negative cursor
    index, `InstrumentHttpClient` inserts
    `lhs.Transport = NewRoundTripper(lhs.Transport)` immediately after,
    moves the trailing blank-line spacing onto the inserted statement (the
    original's becomes none) and records the agent import; every statement
    not matching that pattern, and every statement at a negative index, is
    left unchanged. -/
theorem c6_instrumentHttpClient_spec (m : Manager) (c : Cursor) :
    (∀ lhs0 tok rhs0 decs,
      isNetHttpClientDefinition (.assign [lhs0] tok [rhs0] decs) = true →
      0 ≤ c.index →
      InstrumentHttpClient (.assign [lhs0] tok [rhs0] decs) m c =
        (.assign [lhs0] tok [rhs0] { decs with after := SpaceType.None },
         m.AddImport newrelicAgentImport,
         { c with after :=
             (Stmt.assign [.sel lhs0 { name := "Transport" }] Tok.ASSIGN
               [.call (.ident { name := "NewRoundTripper", path := newrelicAgentImport })
                 [.sel lhs0 { name := "Transport" }]]
               { after := decs.after }) :: c.after })) ∧
    (∀ s : Stmt, isNetHttpClientDefinition s = false →
      InstrumentHttpClient s m c = (s, m, c)) ∧
    (∀ s : Stmt, c.index < 0 → InstrumentHttpClient s m c = (s, m, c)) := by
  refine ⟨?_, ?_, ?_⟩
  · intro lhs0 tok rhs0 decs hdef hidx
    unfold InstrumentHttpClient
    simp only [hdef, hidx, and_self, if_true]
    rfl
  · intro s hdef
    unfold InstrumentHttpClient
    cases s <;> simp_all
  · intro s hidx
    unfold InstrumentHttpClient
    have hcond : ¬ (0 ≤ c.index) := by omega
    cases s <;> simp_all

/-- Witness for C6 (amended) at `client := &http.Client{}` with a trailing
    empty line that migrates onto the inserted statement. -/
theorem c6_witness :
    InstrumentHttpClient
      (.assign [identE "client"] Tok.DEFINE
        [.unary Tok.AND
          (.composite (some (.ident { name := "Client", path := netHttpPath })) [])]
        { after := SpaceType.EmptyLine }) mgr0 cur0 =
    (.assign [identE "client"] Tok.DEFINE
       [.unary Tok.AND
         (.composite (some (.ident { name := "Client", path := netHttpPath })) [])]
       { after := SpaceType.None },
     mgr0.AddImport newrelicAgentImport,
     { cur0 with after :=
         [Stmt.assign [.sel (identE "client") { name := "Transport" }] Tok.ASSIGN
           [.call (.ident { name := "NewRoundTripper", path := newrelicAgentImport })
             [.sel (identE "client") { name := "Transport" }]]
           { after := SpaceType.EmptyLine }] }) := by
  have := (c6_instrumentHttpClient_spec mgr0 cur0).1 (identE "client") Tok.DEFINE
      (.unary Tok.AND
        (.composite (some (.ident { name := "Client", path := netHttpPath })) []))
      { after := SpaceType.EmptyLine } rfl (by decide)
  simpa using this

/-! ## Claim C1 -/

theorem cannotInstrumentHttpMethod_fires (s : Stmt) (m : Manager) (c : Cursor)
    (nm : String) (h : isNetHttpMethodCannotInstrument s = (nm, true)) :
    CannotInstrumentHttpMethod s m c =
      s.withDecs { s.decs with start := cannotTraceOutboundHttp nm s.decs ++ s.decs.start } := by
  unfold CannotInstrumentHttpMethod
  rw [h]
  rfl

theorem instrumentHttpClient_fires (m : Manager) (c : Cursor) (lhs0 rhs0 : Expr)
    (tok : Tok) (decs : NodeDecs)
    (hdef : isNetHttpClientDefinition (.assign [lhs0] tok [rhs0] decs) = true)
    (hidx : 0 ≤ c.index) :
    InstrumentHttpClient (.assign [lhs0] tok [rhs0] decs) m c =
      (.assign [lhs0] tok [rhs0] { decs with after := SpaceType.None },
       m.AddImport newrelicAgentImport,
       c.insertAfter (injectRoundTripper lhs0 decs.after)) := by
  unfold InstrumentHttpClient
  simp only [hdef, hidx, and_self, if_true]

/-- The statement `http.Get("http://example.com")` with no decorations. -/
def bareHttpGet : Stmt :=
  .exprStmt
    (.call (.ident { name := "Get", path := netHttpPath })
      [.basicLit Tok.STRING "\"http://example.com\""]) {}

/-- Claim C1 counterexample: running `CannotInstrumentHttpMethod` a second
    time on its own output changes the statement's leading comments again
    (the warning block is prepended a second time, with a separator), so one
    additional pass is not a no-op. -/
theorem c1_counterexample :
    (CannotInstrumentHttpMethod (CannotInstrumentHttpMethod bareHttpGet mgr0 cur0)
        mgr0 cur0).decs.start ≠
      (CannotInstrumentHttpMethod bareHttpGet mgr0 cur0).decs.start := by
  decide

/-- Claim C1 (amended): the stateless transforms are not idempotent.  A
    second run of `CannotInstrumentHttpMethod` on its own output prepends the
    warning block again — the leading comments grow by exactly four lines
    (three warning lines plus the `//` separator, which is now always added
    since the first pass left comments) — and a second run of
    `InstrumentHttpClient` over the matched client definition (unchanged by
    the first pass except for its cleared trailing spacing) inserts a second
    roundtripper assignment into the surrounding block. -/
theorem c1_second_pass_not_noop :
    (∀ (m m' : Manager) (c c' : Cursor) (s : Stmt),
      (isNetHttpMethodCannotInstrument s).2 = true →
      (CannotInstrumentHttpMethod (CannotInstrumentHttpMethod s m c) m' c').decs.start.length =
        (CannotInstrumentHttpMethod s m c).decs.start.length + 4) ∧
    (∀ (m m' : Manager) (c c' : Cursor) (lhs0 rhs0 : Expr) (tok : Tok) (decs : NodeDecs),
      isNetHttpClientDefinition (.assign [lhs0] tok [rhs0] decs) = true →
      0 ≤ c.index → 0 ≤ c'.index →
      ((InstrumentHttpClient
          (InstrumentHttpClient (.assign [lhs0] tok [rhs0] decs) m c).1
          m' c').2.2).after.length = c'.after.length + 1) := by
  constructor
  · intro m m' c c' s h
    rcases hE : isNetHttpMethodCannotInstrument s with ⟨nm, b⟩
    have hb : b = true := by rw [hE] at h; exact h
    subst hb
    have h1 := cannotInstrumentHttpMethod_fires s m c nm hE
    have h2 : isNetHttpMethodCannotInstrument
        (s.withDecs { s.decs with start := cannotTraceOutboundHttp nm s.decs ++ s.decs.start }) =
        (nm, true) := by
      rw [isNetHttpMethodCannotInstrument_withDecs, hE]
    have h3 := cannotInstrumentHttpMethod_fires
      (s.withDecs { s.decs with start := cannotTraceOutboundHttp nm s.decs ++ s.decs.start })
      m' c' nm h2
    rw [h1, h3, decs_withDecs, decs_withDecs]
    simp only [List.length_append, cannotTraceOutboundHttp_length]
    by_cases hL : s.decs.start.length > 0 <;> simp [hL] <;> omega
  · intro m m' c c' lhs0 rhs0 tok decs hdef hidx hidx'
    have h1 := instrumentHttpClient_fires m c lhs0 rhs0 tok decs hdef hidx
    have hdef2 : isNetHttpClientDefinition
        (.assign [lhs0] tok [rhs0] { decs with after := SpaceType.None }) = true := hdef
    have h2 := instrumentHttpClient_fires m' c' lhs0 rhs0 tok
      { decs with after := SpaceType.None } hdef2 hidx'
    have hstep : (InstrumentHttpClient (.assign [lhs0] tok [rhs0] decs) m c).1
        = .assign [lhs0] tok [rhs0] { decs with after := SpaceType.None } := by
      rw [h1]
    rw [hstep, h2]
    rfl

/-- Witness for C1 (amended): both parts at `http.Get(...)` and at
    `client := &http.Client{}`. -/
theorem c1_witness :
    (CannotInstrumentHttpMethod (CannotInstrumentHttpMethod bareHttpGet mgr0 cur0)
        mgr0 cur0).decs.start.length =
      (CannotInstrumentHttpMethod bareHttpGet mgr0 cur0).decs.start.length + 4 ∧
    ((InstrumentHttpClient
        (InstrumentHttpClient
          (.assign [identE "client"] Tok.DEFINE
            [.unary Tok.AND
              (.composite (some (.ident { name := "Client", path := netHttpPath })) [])]
            {}) mgr0 cur0).1
        mgr0 cur0).2.2).after.length = cur0.after.length + 1 :=
  ⟨c1_second_pass_not_noop.1 mgr0 mgr0 cur0 cur0 bareHttpGet rfl,
   c1_second_pass_not_noop.2 mgr0 mgr0 cur0 cur0 (identE "client")
     (.unary Tok.AND
       (.composite (some (.ident { name := "Client", path := netHttpPath })) []))
     Tok.DEFINE {} rfl (by decide) (by decide)⟩

/-! ## Claim C4 -/

/-- Claim C4: for every statement in which the walk finds a `net/http` `Do`
    call (with its request argument), at a valid cursor index: when the
    receiver is the `DefaultClient` identifier of the HTTP library, the
    statement is bracketed with
    `externalSegment := StartExternalSegment(txn, request)` before and
    `externalSegment.End()` after, with a
    `externalSegment.Response = respIdent` between the statement and `End()`
    exactly when the statement binds a value of type `*net/http.Response`;
    otherwise the single statement
    `request = RequestWithTransactionContext(request, txn)` is inserted
    before it.  Both branches return true, record the agent import and
    migrate the statement's leading (respectively trailing) decorations onto
    the inserted statements. -/
theorem c4_externalHttpCall_spec (m : Manager) (s : Stmt) (c : Cursor)
    (txn : String) (fn : Expr) (args : List Expr) (req : Expr)
    (hidx : 0 ≤ c.index)
    (hfind : findDoStmt m.GetDecoratorPackage none s = some (.call fn args))
    (hreq : args.head? = some req) :
    (GetNetHttpClientVariableName (.call fn args) m.GetDecoratorPackage =
        httpDefaultClientVariable →
      ExternalHttpCall m s c txn =
        some (true,
          s.withDecs { before := SpaceType.None, start := [],
                       after := SpaceType.None, endc := [] },
          { index := c.index,
            before := c.before ++
              [Stmt.assign [identE "externalSegment"] Tok.DEFINE
                [.call (.ident { name := "StartExternalSegment", path := newrelicAgentImport })
                  [identE txn, req]]
                { before := s.decs.before, start := s.decs.start }],
            after :=
              (match getHttpResponseVariable m s with
               | some rv => [captureHttpResponse "externalSegment" rv]
               | none => []) ++
              Stmt.exprStmt (.call (.sel (identE "externalSegment") { name := "End" }) [])
                { after := s.decs.after, endc := s.decs.endc } :: c.after },
          m.AddImport newrelicAgentImport)) ∧
    (GetNetHttpClientVariableName (.call fn args) m.GetDecoratorPackage ≠
        httpDefaultClientVariable →
      ExternalHttpCall m s c txn =
        some (true,
          s.withDecs { before := SpaceType.None, start := [],
                       after := s.decs.after, endc := s.decs.endc },
          { index := c.index,
            before := c.before ++
              [Stmt.assign [req] Tok.ASSIGN
                [.call (.ident { name := "RequestWithTransactionContext",
                                 path := newrelicAgentImport })
                  [req, identE txn]]
                { before := s.decs.before, start := s.decs.start }],
            after := c.after },
          m.AddImport newrelicAgentImport)) := by
  have hnlt : ¬ (c.index < 0) := by omega
  constructor
  · intro hdc
    simp only [ExternalHttpCall, hnlt, if_false, hfind, callArgsOf, hreq, hdc, if_true,
      startExternalSegment, endExternalSegment, Cursor.insertBefore, Cursor.insertAfter,
      getHttpResponseVariable_withDecs]
    cases hrv : getHttpResponseVariable m s <;> simp [hrv]
  · intro hdc
    simp only [ExternalHttpCall, hnlt, if_false, hfind, callArgsOf, hreq, hdc, if_false,
      addTxnToRequestContext, Cursor.insertBefore]

/-- The `http.DefaultClient.Do(req)` call expression. -/
def defaultClientDoCall : Expr :=
  .call
    (.sel (.ident { name := "DefaultClient", path := netHttpPath }) { name := "Do" })
    [identE "req"]

/-- The oracle for the C4/C10 witnesses: `Do` and `DefaultClient` resolve to
    `net/http`, and the identifier `resp` has type `*net/http.Response`. -/
def pkgHttp : Pkg :=
  { identUses := fun i => if i.name = "Do" ∨ i.name = "DefaultClient" then netHttpPath else "",
    typeStrOf := fun e =>
      match e with
      | .ident i => if i.name = "resp" then "*net/http.Response" else ""
      | _ => "",
    callResult := fun _ => none }

/-- A manager over the http oracle. -/
def mgrHttp : Manager := { mgr0 with pkg := pkgHttp }

/-- The statement `resp, _ := http.DefaultClient.Do(req)` with a leading
    comment and trailing spacing. -/
def defaultClientDoStmt : Stmt :=
  .assign [identE "resp", identE "_"] Tok.DEFINE [defaultClientDoCall]
    { before := SpaceType.NewLine, start := ["// make the request"],
      after := SpaceType.NewLine }

/-- Witness for C4 at `resp, _ := http.DefaultClient.Do(req)`: the statement
    is bracketed with the external segment, `externalSegment.Response = resp`
    is inserted between the statement and `End()`, and the leading comment
    migrates onto the segment-start statement. -/
theorem c4_witness :
    ExternalHttpCall mgrHttp defaultClientDoStmt cur0 "txn" =
      some (true,
        Stmt.assign [identE "resp", identE "_"] Tok.DEFINE [defaultClientDoCall] {},
        { index := 0,
          before :=
            [Stmt.assign [identE "externalSegment"] Tok.DEFINE
              [.call (.ident { name := "StartExternalSegment", path := newrelicAgentImport })
                [identE "txn", identE "req"]]
              { before := SpaceType.NewLine, start := ["// make the request"] }],
          after :=
            [captureHttpResponse "externalSegment" (identE "resp"),
             Stmt.exprStmt (.call (.sel (identE "externalSegment") { name := "End" }) [])
               { after := SpaceType.NewLine }] },
        mgrHttp.AddImport newrelicAgentImport) := by
  have := (c4_externalHttpCall_spec mgrHttp defaultClientDoStmt cur0 "txn"
      (.sel (.ident { name := "DefaultClient", path := netHttpPath }) { name := "Do" })
      [identE "req"] (identE "req") (by decide) rfl rfl).1 rfl
  simpa [defaultClientDoStmt, defaultClientDoCall] using this

/-! ## Claim C10 -/

/-- A statement whose `Do` call has an empty argument list. -/
def doNoArgsStmt : Stmt :=
  .exprStmt (.call (.sel (identE "client") { name := "Do" }) []) {}

/-- Claim C10: `ExternalHttpCall` reads the first argument of the matched
    `Do` call unconditionally; on a matched call with an empty argument list
    the indexing is out of range (the model's panic value `none`), and the
    function is total whenever every matched `Do` call has at least one
    argument. -/
theorem c10_externalHttpCall_args_total :
    ExternalHttpCall mgrHttp doNoArgsStmt cur0 "txn" = none ∧
    (∀ (m : Manager) (s : Stmt) (c : Cursor) (txn : String) (fn : Expr) (args : List Expr),
      0 ≤ c.index →
      findDoStmt m.GetDecoratorPackage none s = some (.call fn args) →
      args ≠ [] →
      (ExternalHttpCall m s c txn).isSome = true) := by
  constructor
  · rfl
  · intro m s c txn fn args hidx hfind hargs
    have hnlt : ¬ (c.index < 0) := by omega
    obtain ⟨a, as, rfl⟩ := List.exists_cons_of_ne_nil hargs
    simp only [ExternalHttpCall, hnlt, if_false, hfind, callArgsOf, List.head?_cons]
    split
    all_goals first
    | simp
    | (split <;> simp)

/-- Witness for C10's totality part at the C4 witness statement (whose `Do`
    call has one argument). -/
theorem c10_witness :
    (ExternalHttpCall mgrHttp defaultClientDoStmt cur0 "txn").isSome = true :=
  c10_externalHttpCall_args_total.2 mgrHttp defaultClientDoStmt cur0 "txn"
    (.sel (.ident { name := "DefaultClient", path := netHttpPath }) { name := "Do" })
    [identE "req"] (by decide) rfl (by simp)

/-! ## Claim C8 -/

/-- Claim C8: for every declaration recognized as an HTTP handler (exactly
    two parameters resolving to the HTTP library's `ResponseWriter` and
    `*Request`), `InstrumentHandleFunction` traces it with transaction name
    `nrTxn`; exactly when tracing modified the body, the statement
    `nrTxn := FromContext(r.Context())` (with one empty line trailing) is
    prepended as the new first statement; a handler the tracer did not
    modify is left unchanged.  The Function Tracer is a parameter satisfying
    its spec contract (section 4.6: an unmodified declaration is returned
    as-is). -/
theorem c8_instrumentHandleFunction_spec
    (TraceFunction : Manager → FuncDecl → String → FuncDecl × Bool × Manager)
    (m : Manager) (d : FuncDecl)
    (hh : isHttpHandler d m.GetDecoratorPackage = true)
    (hcontract : (TraceFunction m d "nrTxn").2.1 = false →
      (TraceFunction m d "nrTxn").1 = d) :
    ((TraceFunction m d "nrTxn").2.1 = true →
      (InstrumentHandleFunction TraceFunction d m).1.body =
        Stmt.assign [identE "nrTxn"] Tok.DEFINE
          [.call (.ident { name := "FromContext", path := newrelicAgentImport })
            [.call (.sel (identE "r") { name := "Context" }) []]]
          { after := SpaceType.EmptyLine } :: (TraceFunction m d "nrTxn").1.body) ∧
    ((TraceFunction m d "nrTxn").2.1 = false →
      (InstrumentHandleFunction TraceFunction d m).1 = d) := by
  constructor
  · intro hmod
    unfold InstrumentHandleFunction
    simp only [hh, if_true, hmod]
    rfl
  · intro hmod
    unfold InstrumentHandleFunction
    simp only [hh, if_true, hmod, Bool.false_eq_true, if_false]
    exact hcontract hmod

/-- The oracle for the C8 witness: `ResponseWriter` idents have type
    `net/http.ResponseWriter` and star expressions have type
    `*net/http.Request`. -/
def pkgHandler : Pkg :=
  { identUses := fun _ => "",
    typeStrOf := fun e =>
      match e with
      | .ident i => if i.name = "ResponseWriter" then "net/http.ResponseWriter" else ""
      | .star _ => "*net/http.Request"
      | _ => "",
    callResult := fun _ => none }

/-- A manager over the handler oracle. -/
def mgrHandler : Manager := { mgr0 with pkg := pkgHandler }

/-- The handler declaration `func myHandler(w http.ResponseWriter, r *http.Request)`. -/
def handlerDecl : FuncDecl :=
  { name := "myHandler",
    params :=
      [{ names := ["w"], ty := .ident { name := "ResponseWriter", path := netHttpPath } },
       { names := ["r"], ty := .star (.ident { name := "Request", path := netHttpPath }) }],
    body := [.ret [] {}] }

/-- A tracer stand-in for the C8 witness that rewrites the body and reports a
    modification. -/
def traceMark : Manager → FuncDecl → String → FuncDecl × Bool × Manager :=
  fun m d _ => ({ d with body := Stmt.deferStmt (identE "seg") {} :: d.body }, true, m)

/-- Witness for C8: the traced handler's body starts with the
    `nrTxn := FromContext(r.Context())` binding followed by the tracer's
    output body. -/
theorem c8_witness :
    (InstrumentHandleFunction traceMark handlerDecl mgrHandler).1.body =
      Stmt.assign [identE "nrTxn"] Tok.DEFINE
        [.call (.ident { name := "FromContext", path := newrelicAgentImport })
          [.call (.sel (identE "r") { name := "Context" }) []]]
        { after := SpaceType.EmptyLine } ::
      [Stmt.deferStmt (identE "seg") {}, .ret [] {}] :=
  (c8_instrumentHandleFunction_spec traceMark mgrHandler handlerDecl rfl
    (fun h => by simp [traceMark] at h)).1 rfl

/-! ## Claim C2 -/

theorem addImport_currentPackage (m : Manager) (p : String) :
    (m.AddImport p).currentPackage = m.currentPackage := by
  unfold Manager.AddImport
  split <;> rfl

theorem addImport_index (m : Manager) (p : String) :
    (m.AddImport p).index = m.index := by
  unfold Manager.AddImport
  split <;> rfl

theorem instrMainStmt_assign (tr : TraceStub) (m : Manager) (ts : Bool)
    (lhs : List Expr) (tok : Tok) (rhs : List Expr) (decs : NodeDecs) :
    instrMainStmt tr m ts (.assign lhs tok rhs decs) =
      ([.assign lhs tok rhs decs], m, ts) := rfl

theorem instrMainStmt_agentInit (tr : TraceStub) (m : Manager) (ts : Bool)
    (a v : String) :
    instrMainStmt tr m ts (agentInitStmt a v) = ([agentInitStmt a v], m, ts) := rfl

theorem instrMainStmt_shutdown (tr : TraceStub) (m : Manager) (ts : Bool) (v : String) :
    instrMainStmt tr m ts (shutdownAgent v) = ([shutdownAgent v], m, ts) := by
  simp [shutdownAgent, instrMainStmt, GetPackageFunctionInvocation,
    RequiresTransactionArgument, WrapHandleFunc, GetNetHttpMethod]

theorem instrMainStmt_panicOnError (tr : TraceStub) (m : Manager) (ts : Bool)
    (hpanic : m.index.lookup (m.currentPackage, "panic") = none) :
    instrMainStmt tr m ts panicOnError = ([panicOnError], m, ts) := by
  simp [panicOnError, instrMainStmt, instrMainStmts, GetPackageFunctionInvocation,
    hpanic, RequiresTransactionArgument, WrapHandleFunc, GetNetHttpMethod, identE]

theorem instrMainStmts_append (tr : TraceStub) (l1 l2 : List Stmt) :
    ∀ (m : Manager) (ts : Bool),
      instrMainStmts tr m ts (l1 ++ l2) =
        ((instrMainStmts tr m ts l1).1 ++
           (instrMainStmts tr (instrMainStmts tr m ts l1).2.1
             (instrMainStmts tr m ts l1).2.2 l2).1,
         (instrMainStmts tr (instrMainStmts tr m ts l1).2.1
           (instrMainStmts tr m ts l1).2.2 l2).2) := by
  induction l1 with
  | nil => intro m ts; simp [instrMainStmts]
  | cons s rest ih =>
    intro m ts
    simp only [List.cons_append, instrMainStmts, List.append_eq, ih, List.append_assoc]

/-- Claim C2 counterexample: the statement `InstrumentMain` appends as the
    last statement of `main` is the plain expression statement
    `agent.Shutdown(5 * time.Second)` — not a deferred call. -/
def trace0 : TraceStub := fun m _ => m

/-- An empty `main` declaration. -/
def mainDecl0 : FuncDecl := { name := "main", params := [], body := [] }

/-- Claim C2 counterexample (see `trace0`): the transformed empty `main`
    ends with `shutdownAgent "agent"`, which is an expression statement and
    not a `defer` statement, refuting the claimed deferred shutdown. -/
theorem c2_counterexample :
    (InstrumentMain trace0 mainDecl0 mgr0).1.body.getLast? =
      some (shutdownAgent "agent") ∧
    Stmt.isDeferStmt (shutdownAgent "agent") = false :=
  ⟨rfl, rfl⟩

/-- Claim C2 (amended): for every function declaration named `main` (over a
    package index with no user function named `panic`), `InstrumentMain`
    prepends the assignment binding the agent variable and `err` to
    `NewApplication` — with `ConfigAppName(appName)` included exactly when
    the application name is non-empty, followed by
    `ConfigFromEnvironment()` — then the `if err != nil { panic(err) }`
    block, and appends as the last statement of the body the plain (not
    deferred) expression statement `agent.Shutdown(5 * time.Second)`; hence
    in the transformed `main` the first statement is the
    agent-initialization assignment and the last is the shutdown call. -/
theorem c2_instrumentMain_bookends (tr : TraceStub) (m : Manager) (d : FuncDecl)
    (hname : d.name = "main")
    (hpanic : m.index.lookup (m.currentPackage, "panic") = none) :
    (InstrumentMain tr d m).1.body.head? =
      some (Stmt.assign [identE m.agentVariableName, identE "err"] Tok.DEFINE
        [.call (.ident { name := "NewApplication", path := newrelicAgentImport })
          ((if m.appName ≠ "" then
              [Expr.call (.ident { name := "ConfigAppName", path := newrelicAgentImport })
                [.basicLit Tok.STRING (goQuote m.appName)]]
            else []) ++
            [Expr.call (.ident { name := "ConfigFromEnvironment", path := newrelicAgentImport }) []])]
        {}) ∧
    (InstrumentMain tr d m).1.body[1]? = some panicOnError ∧
    (InstrumentMain tr d m).1.body.getLast? =
      some (Stmt.exprStmt
        (.call (.sel (identE m.agentVariableName) { name := "Shutdown" })
          [.binary (.basicLit Tok.INT "5") Tok.MUL (.ident { name := "Second", path := "time" })])
        { before := SpaceType.EmptyLine }) ∧
    Stmt.isDeferStmt (shutdownAgent m.agentVariableName) = false := by
  have hpanic0 : (m.AddImport newrelicAgentImport).index.lookup
      ((m.AddImport newrelicAgentImport).currentPackage, "panic") = none := by
    rw [addImport_currentPackage, addImport_index]
    exact hpanic
  have hbody : (InstrumentMain tr d m).1.body =
      agentInitStmt m.appName m.agentVariableName :: panicOnError ::
        ((instrMainStmts tr (m.AddImport newrelicAgentImport) false d.body).1 ++
          [shutdownAgent m.agentVariableName]) := by
    unfold InstrumentMain
    simp only [hname, if_true, createAgentAST, List.cons_append, List.nil_append]
    simp only [instrMainStmts, instrMainStmt_agentInit,
      instrMainStmt_panicOnError tr (m.AddImport newrelicAgentImport) false hpanic0,
      instrMainStmts_append tr d.body [shutdownAgent m.agentVariableName],
      instrMainStmt_shutdown, List.append_nil, List.cons_append, List.nil_append]
  refine ⟨?_, ?_, ?_, rfl⟩
  · rw [hbody]
    simp only [List.head?_cons, Option.some.injEq]
    by_cases happ : m.appName = "" <;> simp [agentInitStmt, happ]
  · rw [hbody]
    simp
  · rw [hbody]
    have : agentInitStmt m.appName m.agentVariableName :: panicOnError ::
        ((instrMainStmts tr (m.AddImport newrelicAgentImport) false d.body).1 ++
          [shutdownAgent m.agentVariableName]) =
        (agentInitStmt m.appName m.agentVariableName :: panicOnError ::
          (instrMainStmts tr (m.AddImport newrelicAgentImport) false d.body).1) ++
          [shutdownAgent m.agentVariableName] := by
      simp
    rw [this, List.getLast?_concat]
    rfl

/-- A manager with a non-empty application name for the C2 witness. -/
def mgrApp : Manager := { mgr0 with appName := "demo" }

/-- A `main` declaration with one body statement for the C2 witness. -/
def mainDeclW : FuncDecl :=
  { name := "main", params := [], body := [.exprStmt (.call (identE "run") []) {}] }

/-- Witness for C2 (amended) at a `main` with one statement and application
    name `demo`. -/
theorem c2_witness :
    (InstrumentMain trace0 mainDeclW mgrApp).1.body.head? =
      some (Stmt.assign [identE mgrApp.agentVariableName, identE "err"] Tok.DEFINE
        [.call (.ident { name := "NewApplication", path := newrelicAgentImport })
          ((if mgrApp.appName ≠ "" then
              [Expr.call (.ident { name := "ConfigAppName", path := newrelicAgentImport })
                [.basicLit Tok.STRING (goQuote mgrApp.appName)]]
            else []) ++
            [Expr.call (.ident { name := "ConfigFromEnvironment", path := newrelicAgentImport }) []])]
        {}) ∧
    (InstrumentMain trace0 mainDeclW mgrApp).1.body[1]? = some panicOnError ∧
    (InstrumentMain trace0 mainDeclW mgrApp).1.body.getLast? =
      some (Stmt.exprStmt
        (.call (.sel (identE mgrApp.agentVariableName) { name := "Shutdown" })
          [.binary (.basicLit Tok.INT "5") Tok.MUL (.ident { name := "Second", path := "time" })])
        { before := SpaceType.EmptyLine }) ∧
    Stmt.isDeferStmt (shutdownAgent mgrApp.agentVariableName) = false :=
  c2_instrumentMain_bookends trace0 mgrApp mainDeclW rfl rfl

end GoEasyInstr
